import Mathlib

/-!
Verification of the script-step parameter decoders of fm-xml-export-exploder:
the Button and DialogField streaming decoders and their renderers
(src/script_steps/parameters/button.rs, src/script_steps/parameters/dialog_field.rs).

The XML event cursor is embedded as a finite list of events; end-of-input is
the end of the list.  External collaborators (the attribute accessor, the
CData conversion helper, and the Target/Calculation sibling decoders) are not
part of the two source files and are modelled from their contracts in the
specification.
-/

/-- One low-level markup event as produced by the event cursor:
element-open with its attributes, element-close, a CData literal text block,
a plain text block, a self-closing (empty) element, or a skippable
cursor-level decode error.  End-of-input is the end of the event list. -/
inductive XmlEvent where
  | start (name : String) (attrs : List (String × String)) : XmlEvent
  | close (name : String) : XmlEvent
  | cdata (s : String) : XmlEvent
  | txt (s : String) : XmlEvent
  | emptyEl (name : String) (attrs : List (String × String)) : XmlEvent
  | err : XmlEvent
  deriving Repr, DecidableEq

/-- Modelled from the spec: the Attribute Accessor collaborator
(get_attribute in src/utils/attributes.rs, not under src/): pure lookup of a
named attribute's string value on an element-open event, returning absence on
a missing key. -/
def get_attribute (attrs : List (String × String)) (name : String) : Option String :=
  (attrs.find? (fun p => p.1 == name)).map Prod.snd

/-- Modelled from the spec: the CData conversion helper
(cdata_to_string in src/utils/xml_utils.rs, not under src/): converts a
literal text block's raw bytes into the carried string. -/
def cdata_to_string (s : String) : String := s

/-- The decoded dialog button record (struct Button in button.rs). -/
structure Button where
  label : Option String
  commit : Bool
  deriving Repr, DecidableEq

/-- The commit update performed on every nested element-open (button.rs lines
29-33): on a Boolean element whose "value" attribute is present, commit is
assigned the comparison of that value with the literal "True"; a Boolean with
no "value" attribute, and any non-Boolean element, leaves commit unchanged. -/
def commitStep (name : String) (attrs : List (String × String)) (commit : Bool) :
    Bool :=
  if name = "Boolean" then
    match get_attribute attrs "value" with
    | some val => val == "True"
    | none => commit
  else commit

/-- in_text becomes true on a Text element-open (button.rs line 28). -/
def inTextOpen (name : String) (in_text : Bool) : Bool :=
  if name = "Text" then true else in_text

/-- in_text becomes false on a Text element-close (button.rs lines 46-48). -/
def inTextClose (name : String) (in_text : Bool) : Bool :=
  if name = "Text" then false else in_text

/-- The label update performed on a CData block (button.rs lines 37-44): the
converted text is stored only when the cursor is inside a Text element, the
label is still unset, and the text is non-empty. -/
def labelStep (in_text : Bool) (label : Option String) (s : String) :
    Option String :=
  if in_text ∧ label = none ∧ cdata_to_string s ≠ "" then
    some (cdata_to_string s)
  else label

/-- The event-consuming loop of Button::from_xml (button.rs lines 21-57),
with the mutable locals label, commit, in_text and the signed depth counter
made explicit.  Returns the decoded record together with the events left on
the cursor after the loop breaks. -/
def Button.loop : List XmlEvent → Option String → Bool → Bool → Int →
    Button × List XmlEvent
  | [], label, commit, _, _ => (⟨label, commit⟩, [])
  | .err :: rest, label, commit, in_text, depth =>
      Button.loop rest label commit in_text depth
  | .start name attrs :: rest, label, commit, in_text, depth =>
      Button.loop rest label (commitStep name attrs commit)
        (inTextOpen name in_text) (depth + 1)
  | .cdata s :: rest, label, commit, in_text, depth =>
      Button.loop rest (labelStep in_text label s) commit in_text depth
  | .close name :: rest, label, commit, in_text, depth =>
      if depth - 1 = 0 then (⟨label, commit⟩, rest)
      else Button.loop rest label commit (inTextClose name in_text) (depth - 1)
  | .txt _ :: rest, label, commit, in_text, depth =>
      Button.loop rest label commit in_text depth
  | .emptyEl _ _ :: rest, label, commit, in_text, depth =>
      Button.loop rest label commit in_text depth

/-- Button::from_xml (button.rs lines 14-60): the caller has already consumed
the opening tag, whose attributes are passed as e; label is seeded from the
"value" attribute, commit starts false, in_text starts false and the depth
counter starts at 1. -/
def Button.from_xml (e : List (String × String)) (events : List XmlEvent) :
    Button × List XmlEvent :=
  Button.loop events (get_attribute e "value") false false 1

/-- Button::display (button.rs lines 62-76). -/
def Button.display (b : Button) (button_type : String) : Option String :=
  match b.label with
  | none => none
  | some label =>
    if label = "" then none
    else
      some ((if button_type = "Button1" then "Default Button"
        else if button_type = "Button2" then "Button 2"
        else if button_type = "Button3" then "Button 3"
        else button_type) ++ ": " ++ label)

/-- Modelled from the spec: the observable outcome of a collaborator decoder
(Target::from_xml / Calculation::from_xml with display(), in
src/script_steps/parameters/target.rs and calculation.rs, not under src/):
from the delegated element's attributes and the events following its opening
tag it yields either a ParseError (none) or the decoded variant's rendered
display string (some d, where d itself may be absent). -/
def Collab : Type :=
  List (String × String) → List XmlEvent → Option (Option String)

/-- Modelled from the spec: the event consumption of a collaborator decoder,
which consumes exactly its own full sub-tree including its own closing tag
(depth counted from 1 just inside the opening tag), or everything on
premature end of input. -/
def skipSubtree : List XmlEvent → Int → List XmlEvent
  | [], _ => []
  | .start _ _ :: rest, depth => skipSubtree rest (depth + 1)
  | .close _ :: rest, depth =>
      if depth - 1 = 0 then rest else skipSubtree rest (depth - 1)
  | .cdata _ :: rest, depth => skipSubtree rest depth
  | .txt _ :: rest, depth => skipSubtree rest depth
  | .emptyEl _ _ :: rest, depth => skipSubtree rest depth
  | .err :: rest, depth => skipSubtree rest depth

theorem skipSubtree_length (events : List XmlEvent) (d : Int) :
    (skipSubtree events d).length ≤ events.length := by
  induction events generalizing d with
  | nil => simp [skipSubtree]
  | cons e rest ih =>
    cases e with
    | start n a => exact le_trans (ih _) (Nat.le_succ _)
    | close n =>
      simp only [skipSubtree]
      split
      · exact Nat.le_succ _
      · exact le_trans (ih _) (Nat.le_succ _)
    | cdata s => exact le_trans (ih _) (Nat.le_succ _)
    | txt s => exact le_trans (ih _) (Nat.le_succ _)
    | emptyEl n a => exact le_trans (ih _) (Nat.le_succ _)
    | err => exact le_trans (ih _) (Nat.le_succ _)

/-- The decoded dialog input field record (struct DialogField in
dialog_field.rs). -/
structure DialogField where
  target : Option String
  label : Option String
  password : Bool
  deriving Repr, DecidableEq

/-- Storing a Target collaborator's outcome for the Target parameter
(dialog_field.rs lines 33-36): on Ok the rendered display string (itself
optional) is stored, on ParseError nothing is stored. -/
def storeTarget (r : Option (Option String)) (item : DialogField) : DialogField :=
  match r with
  | some s => { item with target := s }
  | none => item

/-- Storing a Calculation collaborator's outcome for the Label parameter
(dialog_field.rs lines 39-42): on Ok the rendered display string (itself
optional) is stored, on ParseError nothing is stored. -/
def storeLabel (r : Option (Option String)) (item : DialogField) : DialogField :=
  match r with
  | some s => { item with label := s }
  | none => item

/-- The password update performed on a nested Boolean element-open
(dialog_field.rs lines 47-55): password becomes true exactly when the "type"
attribute is "Password" and the "value" attribute is "True"; any other
combination leaves the record unchanged. -/
def passwordStep (attrs : List (String × String)) (item : DialogField) :
    DialogField :=
  if get_attribute attrs "type" = some "Password" ∧
      get_attribute attrs "value" = some "True" then
    { item with password := true }
  else item

/-- The event-consuming loop of DialogField::from_xml (dialog_field.rs lines
19-46), parameterized by the two collaborator decoders it delegates to.  A
nested Parameter of type Target (resp. Label) has its whole sub-tree consumed
by the collaborator; on Ok the collaborator's rendered display string is
stored, on ParseError nothing is; in both cases the depth counter receives
the extra decrement right after the delegation, compensating the optimistic
increment made on the element-open. -/
def DialogField.loop (oT oL : Collab) (events : List XmlEvent)
    (item : DialogField) (depth : Int) : DialogField × List XmlEvent :=
  match events with
  | [] => (item, [])
  | .err :: rest => DialogField.loop oT oL rest item depth
  | .start name attrs :: rest =>
      if name = "Parameter" then
        match get_attribute attrs "type" with
        | some ty =>
          if ty = "Target" then
            DialogField.loop oT oL (skipSubtree rest 1)
              (storeTarget (oT attrs rest) item) (depth + 1 - 1)
          else if ty = "Label" then
            DialogField.loop oT oL (skipSubtree rest 1)
              (storeLabel (oL attrs rest) item) (depth + 1 - 1)
          else DialogField.loop oT oL rest item (depth + 1)
        | none => DialogField.loop oT oL rest item (depth + 1)
      else if name = "Boolean" then
        DialogField.loop oT oL rest (passwordStep attrs item) (depth + 1)
      else DialogField.loop oT oL rest item (depth + 1)
  | .close _ :: rest =>
      if depth - 1 = 0 then (item, rest)
      else DialogField.loop oT oL rest item (depth - 1)
  | .cdata _ :: rest => DialogField.loop oT oL rest item depth
  | .txt _ :: rest => DialogField.loop oT oL rest item depth
  | .emptyEl _ _ :: rest => DialogField.loop oT oL rest item depth
termination_by events.length
decreasing_by
  all_goals simp_wf
  all_goals exact Nat.lt_succ_of_le (skipSubtree_length _ _)

/-- DialogField::from_xml (dialog_field.rs lines 18-68): the opening tag's
attributes are ignored (_e), the record starts with all fields at their
defaults and the depth counter starts at 1. -/
def DialogField.from_xml (oT oL : Collab) (_e : List (String × String))
    (events : List XmlEvent) : DialogField × List XmlEvent :=
  DialogField.loop oT oL events ⟨none, none, false⟩ 1

/-- DialogField::display (dialog_field.rs lines 73-96). -/
def DialogField.display (d : DialogField) (field_type : String) :
    Option String :=
  match d.target with
  | none => none
  | some target =>
    some (String.intercalate " ; "
      ((["Input " ++
          (if field_type = "Field1" then "1"
            else if field_type = "Field2" then "2"
            else if field_type = "Field3" then "3"
            else "?") ++ ": " ++ target] ++
        (match d.label with
          | some label =>
            if label ≠ "" then
              ["Label " ++
                (if field_type = "Field1" then "1"
                  else if field_type = "Field2" then "2"
                  else if field_type = "Field3" then "3"
                  else "?") ++ ": " ++ label]
            else []
          | none => [])) ++
        (if d.password then ["Password"] else [])))

/-- Well-formed element content: the event sequence lying strictly between an
element's opening tag and its matching close, with arbitrarily deep properly
nested elements of arbitrary kinds, interleaved with text blocks, CData
blocks, self-closing elements and skippable cursor errors. -/
inductive WellFormed : List XmlEvent → Prop where
  | nil : WellFormed []
  | node {inner rest : List XmlEvent} (n : String)
      (a : List (String × String)) : WellFormed inner → WellFormed rest →
      WellFormed (.start n a :: inner ++ .close n :: rest)
  | cdata {rest : List XmlEvent} (s : String) : WellFormed rest →
      WellFormed (.cdata s :: rest)
  | txt {rest : List XmlEvent} (s : String) : WellFormed rest →
      WellFormed (.txt s :: rest)
  | emptyEl {rest : List XmlEvent} (n : String)
      (a : List (String × String)) : WellFormed rest →
      WellFormed (.emptyEl n a :: rest)
  | err {rest : List XmlEvent} : WellFormed rest → WellFormed (.err :: rest)

/-- Consuming well-formed content leaves skipSubtree's depth and continuation
untouched: the collaborator-style walk passes over balanced content without
its counter ever reaching zero. -/
theorem skipSubtree_wellFormed {content : List XmlEvent}
    (hb : WellFormed content) :
    ∀ (rest : List XmlEvent) (d : Int), 0 < d →
      skipSubtree (content ++ rest) d = skipSubtree rest d := by
  induction hb with
  | nil => intro rest d _; rfl
  | @node inner rest2 n a hi hr ih1 ih2 =>
    intro rest d hd
    have hl : (XmlEvent.start n a :: inner ++ XmlEvent.close n :: rest2) ++ rest
        = XmlEvent.start n a :: (inner ++ XmlEvent.close n :: (rest2 ++ rest)) := by
      simp
    rw [hl]
    simp only [skipSubtree]
    rw [ih1 (XmlEvent.close n :: (rest2 ++ rest)) (d + 1) (by omega)]
    simp only [skipSubtree]
    rw [if_neg (by omega : ¬(d + 1 - 1 = 0)), (by omega : d + 1 - 1 = d),
      ih2 rest d hd]
  | cdata s hr ih =>
    intro rest d hd
    simpa only [List.cons_append, skipSubtree] using ih rest d hd
  | txt s hr ih =>
    intro rest d hd
    simpa only [List.cons_append, skipSubtree] using ih rest d hd
  | emptyEl n a hr ih =>
    intro rest d hd
    simpa only [List.cons_append, skipSubtree] using ih rest d hd
  | err hr ih =>
    intro rest d hd
    simpa only [List.cons_append, skipSubtree] using ih rest d hd

/-- Button's walk passes over well-formed content at unchanged depth: only
the accumulated label, commit and in_text state can change. -/
theorem button_loop_wellFormed {content : List XmlEvent}
    (hb : WellFormed content) :
    ∀ (rest : List XmlEvent) (label : Option String) (commit in_text : Bool)
      (depth : Int), 0 < depth →
      ∃ l c t, Button.loop (content ++ rest) label commit in_text depth
        = Button.loop rest l c t depth := by
  induction hb with
  | nil =>
    intro rest label commit in_text depth _
    exact ⟨label, commit, in_text, rfl⟩
  | @node inner rest2 n a hi hr ih1 ih2 =>
    intro rest label commit in_text depth hd
    have hl : (XmlEvent.start n a :: inner ++ XmlEvent.close n :: rest2) ++ rest
        = XmlEvent.start n a :: (inner ++ XmlEvent.close n :: (rest2 ++ rest)) := by
      simp
    rw [hl]
    simp only [Button.loop]
    obtain ⟨l1, c1, t1, h1⟩ := ih1 (XmlEvent.close n :: (rest2 ++ rest)) label
      (commitStep n a commit) (inTextOpen n in_text) (depth + 1) (by omega)
    rw [h1]
    simp only [Button.loop]
    rw [if_neg (by omega : ¬(depth + 1 - 1 = 0)),
      (by omega : depth + 1 - 1 = depth)]
    exact ih2 rest l1 c1 (inTextClose n t1) depth hd
  | cdata s hr ih =>
    intro rest label commit in_text depth hd
    simpa only [List.cons_append, Button.loop]
      using ih rest (labelStep in_text label s) commit in_text depth hd
  | txt s hr ih =>
    intro rest label commit in_text depth hd
    simpa only [List.cons_append, Button.loop]
      using ih rest label commit in_text depth hd
  | emptyEl n a hr ih =>
    intro rest label commit in_text depth hd
    simpa only [List.cons_append, Button.loop]
      using ih rest label commit in_text depth hd
  | err hr ih =>
    intro rest label commit in_text depth hd
    simpa only [List.cons_append, Button.loop]
      using ih rest label commit in_text depth hd

/-- The DialogField walk passes over well-formed content at unchanged depth,
for every pair of collaborator decoders: only the accumulated record can
change.  Delegated Parameter sub-trees are consumed by the collaborator
contract and the depth correction puts the counter back where it was. -/
theorem dialog_loop_wellFormed (oT oL : Collab) {content : List XmlEvent}
    (hb : WellFormed content) :
    ∀ (rest : List XmlEvent) (item : DialogField) (depth : Int), 0 < depth →
      ∃ item', DialogField.loop oT oL (content ++ rest) item depth
        = DialogField.loop oT oL rest item' depth := by
  induction hb with
  | nil => intro rest item depth _; exact ⟨item, rfl⟩
  | @node inner rest2 n a hi hr ih1 ih2 =>
    intro rest item depth hd
    have hl : (XmlEvent.start n a :: inner ++ XmlEvent.close n :: rest2) ++ rest
        = XmlEvent.start n a :: (inner ++ XmlEvent.close n :: (rest2 ++ rest)) := by
      simp
    rw [hl]
    simp only [DialogField.loop]
    by_cases hn : n = "Parameter"
    · rw [if_pos hn]
      cases hty : get_attribute a "type" with
      | none =>
        simp only []
        obtain ⟨item1, h1⟩ := ih1 (XmlEvent.close n :: (rest2 ++ rest)) item
          (depth + 1) (by omega)
        rw [h1]
        simp only [DialogField.loop]
        rw [if_neg (by omega : ¬(depth + 1 - 1 = 0)),
          (by omega : depth + 1 - 1 = depth)]
        exact ih2 rest item1 depth hd
      | some ty =>
        simp only []
        by_cases hT : ty = "Target"
        · rw [if_pos hT]
          rw [skipSubtree_wellFormed hi (XmlEvent.close n :: (rest2 ++ rest)) 1
            (by omega)]
          have hskip : skipSubtree (XmlEvent.close n :: (rest2 ++ rest)) 1
              = rest2 ++ rest := by simp [skipSubtree]
          rw [hskip, (by omega : depth + 1 - 1 = depth)]
          exact ih2 rest _ depth hd
        · rw [if_neg hT]
          by_cases hL : ty = "Label"
          · rw [if_pos hL]
            rw [skipSubtree_wellFormed hi (XmlEvent.close n :: (rest2 ++ rest)) 1
              (by omega)]
            have hskip : skipSubtree (XmlEvent.close n :: (rest2 ++ rest)) 1
                = rest2 ++ rest := by simp [skipSubtree]
            rw [hskip, (by omega : depth + 1 - 1 = depth)]
            exact ih2 rest _ depth hd
          · rw [if_neg hL]
            obtain ⟨item1, h1⟩ := ih1 (XmlEvent.close n :: (rest2 ++ rest)) item
              (depth + 1) (by omega)
            rw [h1]
            simp only [DialogField.loop]
            rw [if_neg (by omega : ¬(depth + 1 - 1 = 0)),
              (by omega : depth + 1 - 1 = depth)]
            exact ih2 rest item1 depth hd
    · rw [if_neg hn]
      by_cases hnb : n = "Boolean"
      · rw [if_pos hnb]
        obtain ⟨item1, h1⟩ := ih1 (XmlEvent.close n :: (rest2 ++ rest))
          (passwordStep a item) (depth + 1) (by omega)
        rw [h1]
        simp only [DialogField.loop]
        rw [if_neg (by omega : ¬(depth + 1 - 1 = 0)),
          (by omega : depth + 1 - 1 = depth)]
        exact ih2 rest item1 depth hd
      · rw [if_neg hnb]
        obtain ⟨item1, h1⟩ := ih1 (XmlEvent.close n :: (rest2 ++ rest)) item
          (depth + 1) (by omega)
        rw [h1]
        simp only [DialogField.loop]
        rw [if_neg (by omega : ¬(depth + 1 - 1 = 0)),
          (by omega : depth + 1 - 1 = depth)]
        exact ih2 rest item1 depth hd
  | cdata s hr ih =>
    intro rest item depth hd
    rw [List.cons_append]
    simp only [DialogField.loop]
    exact ih rest item depth hd
  | txt s hr ih =>
    intro rest item depth hd
    rw [List.cons_append]
    simp only [DialogField.loop]
    exact ih rest item depth hd
  | emptyEl n a hr ih =>
    intro rest item depth hd
    rw [List.cons_append]
    simp only [DialogField.loop]
    exact ih rest item depth hd
  | err hr ih =>
    intro rest item depth hd
    rw [List.cons_append]
    simp only [DialogField.loop]
    exact ih rest item depth hd

/-- A label already set is never changed by the Button walk: text blocks only
populate an unset label (first-match-wins). -/
theorem button_loop_label_persist (events : List XmlEvent) :
    ∀ (v : String) (c it : Bool) (d : Int),
      ((Button.loop events (some v) c it d).1).label = some v := by
  induction events with
  | nil => intro v c it d; rfl
  | cons e rest ih =>
    intro v c it d
    cases e with
    | start n a => simpa only [Button.loop] using ih v _ _ _
    | close n =>
      simp only [Button.loop]
      split
      · rfl
      · exact ih v _ _ _
    | cdata s =>
      have hstep : labelStep it (some v) s = some v := by simp [labelStep]
      simp only [Button.loop, hstep]
      exact ih v _ _ _
    | txt s => simpa only [Button.loop] using ih v _ _ _
    | emptyEl n a => simpa only [Button.loop] using ih v _ _ _
    | err => simpa only [Button.loop] using ih v _ _ _

/-- Any property of the record preserved by the password step and by storing
either collaborator's outcome is an invariant of the whole DialogField walk
(stated with an explicit bound on the event list length for the induction). -/
theorem dialog_loop_inv (oT oL : Collab) (P : DialogField → Prop)
    (hB : ∀ a item, P item → P (passwordStep a item))
    (hT : ∀ a rest item, P item → P (storeTarget (oT a rest) item))
    (hL : ∀ a rest item, P item → P (storeLabel (oL a rest) item)) :
    ∀ (N : Nat) (events : List XmlEvent), events.length ≤ N →
      ∀ (item : DialogField) (d : Int), P item →
        P ((DialogField.loop oT oL events item d).1) := by
  intro N
  induction N with
  | zero =>
    intro events hlen item d hP
    have hnil : events = [] := List.eq_nil_of_length_eq_zero (Nat.le_zero.mp hlen)
    subst hnil
    simpa only [DialogField.loop] using hP
  | succ N ih =>
    intro events hlen item d hP
    cases events with
    | nil => simpa only [DialogField.loop] using hP
    | cons e rest =>
      have hr : rest.length ≤ N := by
        simpa using Nat.succ_le_succ_iff.mp hlen
      cases e with
      | err => simp only [DialogField.loop]; exact ih rest hr item d hP
      | start n a =>
        simp only [DialogField.loop]
        by_cases hn : n = "Parameter"
        · rw [if_pos hn]
          cases hty : get_attribute a "type" with
          | none => exact ih rest hr item _ hP
          | some ty =>
            simp only []
            by_cases hTy : ty = "Target"
            · rw [if_pos hTy]
              exact ih _ (le_trans (skipSubtree_length rest 1) hr) _ _
                (hT a rest item hP)
            · rw [if_neg hTy]
              by_cases hLy : ty = "Label"
              · rw [if_pos hLy]
                exact ih _ (le_trans (skipSubtree_length rest 1) hr) _ _
                  (hL a rest item hP)
              · rw [if_neg hLy]
                exact ih rest hr item _ hP
        · rw [if_neg hn]
          by_cases hbo : n = "Boolean"
          · rw [if_pos hbo]
            exact ih rest hr _ _ (hB a item hP)
          · rw [if_neg hbo]
            exact ih rest hr item _ hP
      | close n =>
        simp only [DialogField.loop]
        split
        · exact hP
        · exact ih rest hr item _ hP
      | cdata s => simp only [DialogField.loop]; exact ih rest hr item d hP
      | txt s => simp only [DialogField.loop]; exact ih rest hr item d hP
      | emptyEl n a => simp only [DialogField.loop]; exact ih rest hr item d hP

/-- The unbounded form of the walk invariant. -/
theorem dialog_loop_inv_all (oT oL : Collab) (P : DialogField → Prop)
    (hB : ∀ a item, P item → P (passwordStep a item))
    (hT : ∀ a rest item, P item → P (storeTarget (oT a rest) item))
    (hL : ∀ a rest item, P item → P (storeLabel (oL a rest) item))
    (events : List XmlEvent) (item : DialogField) (d : Int) (hP : P item) :
    P ((DialogField.loop oT oL events item d).1) :=
  dialog_loop_inv oT oL P hB hT hL events.length events le_rfl item d hP

/-- Claim C1: for every finite event sequence forming a well-formed sub-tree
whose opening tag the caller has already consumed, Button::from_xml and
DialogField::from_xml consume exactly the events up to and including the
subject element's matching close: after the decoder returns, the cursor is
positioned at the first event after the matching close, for arbitrarily deep
nesting of unknown element kinds. -/
theorem c1_depth_balance (content suffix : List XmlEvent) (nm : String)
    (attrs : List (String × String)) (oT oL : Collab)
    (hb : WellFormed content) :
    (Button.from_xml attrs (content ++ XmlEvent.close nm :: suffix)).2 = suffix ∧
    (DialogField.from_xml oT oL attrs
        (content ++ XmlEvent.close nm :: suffix)).2 = suffix := by
  constructor
  · obtain ⟨l, c, t, h⟩ := button_loop_wellFormed hb (XmlEvent.close nm :: suffix)
      (get_attribute attrs "value") false false 1 (by omega)
    simp only [Button.from_xml]
    rw [h]
    simp [Button.loop]
  · obtain ⟨item', h⟩ := dialog_loop_wellFormed oT oL hb
      (XmlEvent.close nm :: suffix) ⟨none, none, false⟩ 1 (by omega)
    simp only [DialogField.from_xml]
    rw [h]
    simp [DialogField.loop]

theorem c1_depth_balance_witness :
    (Button.from_xml [("value", "V")]
      ([XmlEvent.start "A" [], XmlEvent.start "B" [], XmlEvent.close "B",
        XmlEvent.cdata "x", XmlEvent.close "A"] ++
        XmlEvent.close "P" :: [XmlEvent.txt "tail"])).2 = [XmlEvent.txt "tail"] ∧
    (DialogField.from_xml (fun _ _ => none) (fun _ _ => none) []
      ([XmlEvent.start "A" [], XmlEvent.start "B" [], XmlEvent.close "B",
        XmlEvent.cdata "x", XmlEvent.close "A"] ++
        XmlEvent.close "P" :: [XmlEvent.txt "tail"])).2 = [XmlEvent.txt "tail"] := by
  have hb : WellFormed
      [XmlEvent.start "A" [], XmlEvent.start "B" [], XmlEvent.close "B",
        XmlEvent.cdata "x", XmlEvent.close "A"] :=
    WellFormed.node "A" []
      (WellFormed.node "B" [] WellFormed.nil
        (WellFormed.cdata "x" WellFormed.nil))
      WellFormed.nil
  exact ⟨(c1_depth_balance _ _ "P" [("value", "V")] (fun _ _ => none)
      (fun _ _ => none) hb).1,
    (c1_depth_balance _ _ "P" [] (fun _ _ => none) (fun _ _ => none) hb).2⟩

/-- Claim C2: whenever DialogField::from_xml observes a nested Parameter
element-open whose type attribute is Target or Label and delegates the
sub-tree to the collaborator, the optimistic increment plus the one
unconditional extra decrement leave the depth counter unchanged — the walk
resumes right after the delegated sub-tree's matching close at the same
depth, whatever the collaborator returns (including ParseError); a Parameter
of any other type, or with no type attribute, affects depth only via the
normal increment. -/
theorem c2_delegation_depth_correction (oT oL : Collab)
    (attrs : List (String × String)) (inner rest : List XmlEvent)
    (item : DialogField) (depth : Int) (nm : String)
    (hb : WellFormed inner) :
    (get_attribute attrs "type" = some "Target" →
      DialogField.loop oT oL
          (XmlEvent.start "Parameter" attrs ::
            inner ++ XmlEvent.close nm :: rest) item depth
        = DialogField.loop oT oL rest
            (storeTarget (oT attrs (inner ++ XmlEvent.close nm :: rest)) item)
            depth) ∧
    (get_attribute attrs "type" = some "Label" →
      DialogField.loop oT oL
          (XmlEvent.start "Parameter" attrs ::
            inner ++ XmlEvent.close nm :: rest) item depth
        = DialogField.loop oT oL rest
            (storeLabel (oL attrs (inner ++ XmlEvent.close nm :: rest)) item)
            depth) ∧
    (∀ ty, get_attribute attrs "type" = some ty → ty ≠ "Target" → ty ≠ "Label" →
      DialogField.loop oT oL (XmlEvent.start "Parameter" attrs :: rest)
          item depth
        = DialogField.loop oT oL rest item (depth + 1)) ∧
    (get_attribute attrs "type" = none →
      DialogField.loop oT oL (XmlEvent.start "Parameter" attrs :: rest)
          item depth
        = DialogField.loop oT oL rest item (depth + 1)) := by
  have hskip : ∀ r : List XmlEvent,
      skipSubtree (inner ++ XmlEvent.close nm :: r) 1 = r := by
    intro r
    rw [skipSubtree_wellFormed hb (XmlEvent.close nm :: r) 1 (by omega)]
    simp [skipSubtree]
  refine ⟨?_, ?_, ?_, ?_⟩
  · intro hty
    simp [DialogField.loop, hty, hskip, (by omega : depth + 1 - 1 = depth)]
  · intro hty
    simp [DialogField.loop, hty, hskip, (by omega : depth + 1 - 1 = depth)]
  · intro ty hty hT hL
    simp [DialogField.loop, hty, hT, hL]
  · intro hty
    simp [DialogField.loop, hty]

theorem c2_delegation_depth_correction_witness :
    DialogField.loop (fun _ _ => none) (fun _ _ => none)
        (XmlEvent.start "Parameter" [("type", "Target")] ::
          [] ++ XmlEvent.close "Parameter" :: [XmlEvent.close "X"])
        ⟨none, none, false⟩ 1
      = DialogField.loop (fun _ _ => none) (fun _ _ => none) [XmlEvent.close "X"]
          (storeTarget ((fun _ _ => none : Collab) [("type", "Target")]
            ([] ++ XmlEvent.close "Parameter" :: [XmlEvent.close "X"]))
            ⟨none, none, false⟩) 1 :=
  (c2_delegation_depth_correction (fun _ _ => none) (fun _ _ => none)
    [("type", "Target")] [] [XmlEvent.close "X"] ⟨none, none, false⟩ 1
    "Parameter" WellFormed.nil).1 rfl

/-- Claim C3: for every Button decode, a "value" attribute on the opening tag
is the label no matter what nested content follows; absent that attribute,
the first non-empty CData block seen inside a nested Text element becomes the
label and is never overwritten later (first-match-wins), and empty text
blocks never set the label. -/
theorem c3_button_label_laws :
    (∀ (attrs : List (String × String)) (events : List XmlEvent) (v : String),
      get_attribute attrs "value" = some v →
      ((Button.from_xml attrs events).1).label = some v) ∧
    (∀ (attrs a : List (String × String)) (t : String) (rest : List XmlEvent),
      get_attribute attrs "value" = none → t ≠ "" →
      ((Button.from_xml attrs
          (XmlEvent.start "Text" a :: XmlEvent.cdata t :: rest)).1).label
        = some t) ∧
    (∀ (rest : List XmlEvent) (t : String) (c : Bool) (d : Int), t ≠ "" →
      ((Button.loop (XmlEvent.cdata t :: rest) none c true d).1).label = some t) ∧
    (∀ (events : List XmlEvent) (v : String) (c it : Bool) (d : Int),
      ((Button.loop events (some v) c it d).1).label = some v) ∧
    (∀ (rest : List XmlEvent) (c it : Bool) (d : Int),
      Button.loop (XmlEvent.cdata "" :: rest) none c it d
        = Button.loop rest none c it d) := by
  have hfirst : ∀ (rest : List XmlEvent) (t : String) (c : Bool) (d : Int),
      t ≠ "" → ((Button.loop (XmlEvent.cdata t :: rest) none c true d).1).label
        = some t := by
    intro rest t c d ht
    have hstep : labelStep true none t = some t := by
      simp [labelStep, cdata_to_string, ht]
    simp only [Button.loop, hstep]
    exact button_loop_label_persist rest t c true d
  refine ⟨?_, ?_, hfirst, button_loop_label_persist, ?_⟩
  · intro attrs events v hv
    simp only [Button.from_xml, hv]
    exact button_loop_label_persist events v false false 1
  · intro attrs a t rest hattr ht
    simp only [Button.from_xml, hattr, Button.loop]
    have hc : commitStep "Text" a false = false := by simp [commitStep]
    have hi : inTextOpen "Text" false = true := by simp [inTextOpen]
    rw [hc, hi]
    exact hfirst rest t false 2 ht
  · intro rest c it d
    have hstep : labelStep it none "" = none := by
      simp [labelStep, cdata_to_string]
    simp only [Button.loop, hstep]

theorem c3_button_label_laws_witness :
    ((Button.from_xml [("value", "Save")]
      [XmlEvent.start "Text" [], XmlEvent.cdata "OK", XmlEvent.close "Text",
        XmlEvent.close "P"]).1).label = some "Save" ∧
    ((Button.from_xml []
      [XmlEvent.start "Text" [], XmlEvent.cdata "OK", XmlEvent.cdata "Later",
        XmlEvent.close "Text", XmlEvent.close "P"]).1).label = some "OK" :=
  ⟨c3_button_label_laws.1 [("value", "Save")] _ "Save" rfl,
    c3_button_label_laws.2.1 [] []
      "OK" [XmlEvent.cdata "Later", XmlEvent.close "Text", XmlEvent.close "P"]
      rfl (by decide)⟩

/-- Claim C4 counterexample: the final nested Boolean observed does NOT
always determine commit.  In the first decode the last Boolean observed has
no "value" attribute, yet commit is true because the earlier Boolean set it
and a missing attribute leaves it unchanged — while the second decode shows
that a lone value-less Boolean yields commit = false, so the last observed
Boolean did not determine the final state. -/
theorem c4_counterexample :
    ((Button.from_xml []
      [XmlEvent.start "Boolean" [("value", "True")], XmlEvent.close "Boolean",
        XmlEvent.start "Boolean" [], XmlEvent.close "Boolean",
        XmlEvent.close "Parameter"]).1).commit = true ∧
    ((Button.from_xml []
      [XmlEvent.start "Boolean" [], XmlEvent.close "Boolean",
        XmlEvent.close "Parameter"]).1).commit = false := by
  constructor
  · decide
  · decide

/-- Claim C4 as amended: commit defaults to false; every nested Boolean
element-open that carries a "value" attribute assigns commit the comparison
of that value with the literal "True" — independently of the previous state,
so the last Boolean carrying a value attribute wins, an explicit "False"
overriding an earlier "True" — while a Boolean without a "value" attribute
leaves commit unchanged. -/
theorem c4_button_commit_amended :
    (∀ (attrs : List (String × String)) (nm : String),
      ((Button.from_xml attrs [XmlEvent.close nm]).1).commit = false) ∧
    (∀ (attrs : List (String × String)) (rest : List XmlEvent)
        (label : Option String) (c it : Bool) (d : Int) (v : String),
      get_attribute attrs "value" = some v →
      Button.loop (XmlEvent.start "Boolean" attrs :: rest) label c it d
        = Button.loop rest label (v == "True") it (d + 1)) ∧
    (∀ (attrs : List (String × String)) (rest : List XmlEvent)
        (label : Option String) (c it : Bool) (d : Int),
      get_attribute attrs "value" = none →
      Button.loop (XmlEvent.start "Boolean" attrs :: rest) label c it d
        = Button.loop rest label c it (d + 1)) := by
  refine ⟨?_, ?_, ?_⟩
  · intro attrs nm
    simp [Button.from_xml, Button.loop]
  · intro attrs rest label c it d v hv
    simp [Button.loop, commitStep, inTextOpen, hv]
  · intro attrs rest label c it d hv
    simp [Button.loop, commitStep, inTextOpen, hv]

theorem c4_button_commit_amended_witness :
    Button.loop [XmlEvent.start "Boolean" [("value", "False")]] none true false 1
      = Button.loop [] none ("False" == "True") false 2 :=
  c4_button_commit_amended.2.1 [("value", "False")] [] none true false 1
    "False" rfl

/-- Claim C5: for every DialogField decode, password defaults to false,
becomes true exactly on a nested Boolean element-open with type attribute
"Password" and value attribute "True", any other combination leaves the
record unchanged, and the flag is monotonic: once true it never reverts. -/
theorem c5_dialog_password (oT oL : Collab) :
    (∀ (attrs : List (String × String)) (nm : String),
      ((DialogField.from_xml oT oL attrs [XmlEvent.close nm]).1).password
        = false) ∧
    (∀ (attrs : List (String × String)) (rest : List XmlEvent)
        (item : DialogField) (d : Int),
      get_attribute attrs "type" = some "Password" →
      get_attribute attrs "value" = some "True" →
      DialogField.loop oT oL (XmlEvent.start "Boolean" attrs :: rest) item d
        = DialogField.loop oT oL rest { item with password := true } (d + 1)) ∧
    (∀ (attrs : List (String × String)) (rest : List XmlEvent)
        (item : DialogField) (d : Int),
      ¬(get_attribute attrs "type" = some "Password" ∧
          get_attribute attrs "value" = some "True") →
      DialogField.loop oT oL (XmlEvent.start "Boolean" attrs :: rest) item d
        = DialogField.loop oT oL rest item (d + 1)) ∧
    (∀ (events : List XmlEvent) (item : DialogField) (d : Int),
      item.password = true →
      ((DialogField.loop oT oL events item d).1).password = true) := by
  refine ⟨?_, ?_, ?_, ?_⟩
  · intro attrs nm
    simp [DialogField.from_xml, DialogField.loop]
  · intro attrs rest item d hty hv
    simp [DialogField.loop, passwordStep, hty, hv]
  · intro attrs rest item d hcomb
    simp [DialogField.loop, passwordStep, hcomb]
  · intro events item d hp
    exact dialog_loop_inv_all oT oL (fun it => it.password = true)
      (by intro a item hP
          simp only [passwordStep]
          split
          · rfl
          · exact hP)
      (by intro a rest item hP
          cases h : oT a rest with
          | none => simpa [storeTarget] using hP
          | some s => simpa [storeTarget] using hP)
      (by intro a rest item hP
          cases h : oL a rest with
          | none => simpa [storeLabel] using hP
          | some s => simpa [storeLabel] using hP)
      events item d hp

theorem c5_dialog_password_witness :
    ((DialogField.loop (fun _ _ => none) (fun _ _ => none)
      [XmlEvent.start "Q" [], XmlEvent.close "Q", XmlEvent.close "P"]
      ⟨none, none, true⟩ 1).1).password = true :=
  (c5_dialog_password (fun _ _ => none) (fun _ _ => none)).2.2.2
    [XmlEvent.start "Q" [], XmlEvent.close "Q", XmlEvent.close "P"]
    ⟨none, none, true⟩ 1 rfl

/-- Claim C6: Button::display returns none exactly when the label is absent
or empty; otherwise it is the role name from the fixed table (Button1 the
Default Button, Button2, Button3), or the raw role tag for any other tag,
followed by a colon and the label. -/
theorem c6_button_display (b : Button) (t : String) :
    (b.display t = none ↔ b.label = none ∨ b.label = some "") ∧
    (∀ l : String, b.label = some l → l ≠ "" →
      b.display t = some ((if t = "Button1" then "Default Button"
        else if t = "Button2" then "Button 2"
        else if t = "Button3" then "Button 3"
        else t) ++ ": " ++ l)) := by
  constructor
  · cases hl : b.label with
    | none => simp [Button.display, hl]
    | some l =>
      by_cases he : l = ""
      · subst he; simp [Button.display, hl]
      · simp [Button.display, hl, he]
  · intro l hl he
    simp [Button.display, hl, he]

theorem c6_button_display_witness :
    (Button.mk (some "Maybe") false).display "Button3"
      = some "Button 3: Maybe" := by
  have h := (c6_button_display (Button.mk (some "Maybe") false) "Button3").2
    "Maybe" rfl (by decide)
  simpa using h

/-- Claim C7: DialogField::display returns none exactly when target is
absent; otherwise it joins with " ; ", in fixed order, the mandatory Input
clause, the Label clause when the label is present and non-empty, and the
literal Password clause when the password flag is set, with the field number
from the fixed table Field1/Field2/Field3 and the placeholder "?" for any
other role tag. -/
theorem c7_dialog_display (d : DialogField) (t : String) :
    (d.display t = none ↔ d.target = none) ∧
    (∀ tv : String, d.target = some tv →
      d.display t = some (String.intercalate " ; "
        (["Input " ++ (if t = "Field1" then "1"
            else if t = "Field2" then "2"
            else if t = "Field3" then "3" else "?") ++ ": " ++ tv] ++
          (match d.label with
            | some l =>
              if l ≠ "" then
                ["Label " ++ (if t = "Field1" then "1"
                  else if t = "Field2" then "2"
                  else if t = "Field3" then "3" else "?") ++ ": " ++ l]
              else []
            | none => []) ++
          (if d.password then ["Password"] else [])))) := by
  constructor
  · cases ht : d.target with
    | none => simp [DialogField.display, ht]
    | some tv => simp [DialogField.display, ht]
  · intro tv ht
    simp [DialogField.display, ht]

theorem c7_dialog_display_witness :
    (DialogField.mk (some "$input1") (some "L1") true).display "Field1"
      = some "Input 1: $input1 ; Label 1: L1 ; Password" := by
  have h := (c7_dialog_display
    (DialogField.mk (some "$input1") (some "L1") true) "Field1").2 "$input1" rfl
  rw [h]
  decide

/-- Claim C8: neither decoder raises or propagates an error: a cursor-level
decode error is skipped and the walk retried on the next event; end of input
terminates the walk and the partially populated record is returned as is;
and a collaborator ParseError is absorbed — the walk consumes the delegated
sub-tree and goes on, and with collaborators that always fail the decoded
target and label simply remain absent, for any input event sequence. -/
theorem c8_no_error_propagation :
    (∀ (rest : List XmlEvent) (label : Option String) (c it : Bool) (d : Int),
      Button.loop (XmlEvent.err :: rest) label c it d
        = Button.loop rest label c it d) ∧
    (∀ (oT oL : Collab) (rest : List XmlEvent) (item : DialogField) (d : Int),
      DialogField.loop oT oL (XmlEvent.err :: rest) item d
        = DialogField.loop oT oL rest item d) ∧
    (∀ (label : Option String) (c it : Bool) (d : Int),
      Button.loop [] label c it d = (⟨label, c⟩, [])) ∧
    (∀ (oT oL : Collab) (item : DialogField) (d : Int),
      DialogField.loop oT oL [] item d = (item, [])) ∧
    (∀ (oL : Collab) (attrs : List (String × String)) (rest : List XmlEvent)
        (item : DialogField) (d : Int),
      get_attribute attrs "type" = some "Target" →
      DialogField.loop (fun _ _ => none) oL
          (XmlEvent.start "Parameter" attrs :: rest) item d
        = DialogField.loop (fun _ _ => none) oL (skipSubtree rest 1) item
            (d + 1 - 1)) ∧
    (∀ (events : List XmlEvent) (d : Int),
      ((DialogField.loop (fun _ _ => none) (fun _ _ => none) events
          ⟨none, none, false⟩ d).1).target = none ∧
      ((DialogField.loop (fun _ _ => none) (fun _ _ => none) events
          ⟨none, none, false⟩ d).1).label = none) := by
  refine ⟨?_, ?_, ?_, ?_, ?_, ?_⟩
  · intro rest label c it d; rfl
  · intro oT oL rest item d; simp only [DialogField.loop]
  · intro label c it d; rfl
  · intro oT oL item d; simp only [DialogField.loop]
  · intro oL attrs rest item d hty
    simp [DialogField.loop, hty, storeTarget]
  · intro events d
    exact dialog_loop_inv_all (fun _ _ => none) (fun _ _ => none)
      (fun it => it.target = none ∧ it.label = none)
      (by intro a item hP
          simp only [passwordStep]
          split
          · exact hP
          · exact hP)
      (by intro a rest item hP; simpa [storeTarget] using hP)
      (by intro a rest item hP; simpa [storeLabel] using hP)
      events ⟨none, none, false⟩ d ⟨rfl, rfl⟩

theorem c8_no_error_propagation_witness :
    DialogField.loop (fun _ _ => none) (fun _ _ => none)
        (XmlEvent.start "Parameter" [("type", "Target")] ::
          [XmlEvent.close "Parameter", XmlEvent.close "P"])
        ⟨none, none, false⟩ 1
      = DialogField.loop (fun _ _ => none) (fun _ _ => none)
          (skipSubtree [XmlEvent.close "Parameter", XmlEvent.close "P"] 1)
          ⟨none, none, false⟩ (1 + 1 - 1) :=
  c8_no_error_propagation.2.2.2.2.1 (fun _ _ => none) [("type", "Target")]
    [XmlEvent.close "Parameter", XmlEvent.close "P"] ⟨none, none, false⟩ 1 rfl

/-- Claim C9 counterexample: the render output with the field absent does not
always differ from the output with the field set to the empty string.  With
an empty-string label, Button::display returns none exactly as with an
absent label, and DialogField::display suppresses the Label clause exactly
as with an absent label — the outputs coincide. -/
theorem c9_counterexample :
    (Button.mk none false).display "Button1"
        = (Button.mk (some "") false).display "Button1" ∧
    (DialogField.mk (some "tgt") none false).display "Field1"
        = (DialogField.mk (some "tgt") (some "") false).display "Field1" := by
  constructor
  · decide
  · decide

/-- Claim C9 as amended: only DialogField's target distinguishes absence from
the empty string in the render output (none versus some output); for Button's
label and DialogField's label, the otherwise identical records with the field
absent and with it set to the empty string render identically. -/
theorem c9_absent_vs_empty_amended (b : Button) (d : DialogField) (t : String) :
    ({ b with label := none } : Button).display t
        = ({ b with label := some "" } : Button).display t ∧
    ({ d with label := none } : DialogField).display t
        = ({ d with label := some "" } : DialogField).display t ∧
    ({ d with target := none } : DialogField).display t = none ∧
    ({ d with target := some "" } : DialogField).display t ≠ none := by
  refine ⟨?_, ?_, ?_, ?_⟩
  · simp [Button.display]
  · cases ht : d.target with
    | none => simp [DialogField.display, ht]
    | some tv => simp [DialogField.display, ht]
  · simp [DialogField.display]
  · simp [DialogField.display]

theorem c9_absent_vs_empty_amended_witness :
    ({ Button.mk (some "x") true with label := none } : Button).display "Button1"
        = ({ Button.mk (some "x") true with
            label := some "" } : Button).display "Button1" ∧
    ({ DialogField.mk (some "y") (some "z") true with
        label := none } : DialogField).display "Field1"
        = ({ DialogField.mk (some "y") (some "z") true with
            label := some "" } : DialogField).display "Field1" ∧
    ({ DialogField.mk (some "y") (some "z") true with
        target := none } : DialogField).display "Field1" = none ∧
    ({ DialogField.mk (some "y") (some "z") true with
        target := some "" } : DialogField).display "Field1" ≠ none :=
  c9_absent_vs_empty_amended (Button.mk (some "x") true)
    (DialogField.mk (some "y") (some "z") true) "Field1"

/-- Claim C10: a self-closing (empty-element) event is ignored entirely by
both decoders: it changes no record field and leaves the depth counter
untouched; in particular a self-closing Boolean marker never sets commit or
password, because only element-open events are inspected. -/
theorem c10_empty_element_ignored :
    (∀ (n : String) (a : List (String × String)) (rest : List XmlEvent)
        (label : Option String) (c it : Bool) (d : Int),
      Button.loop (XmlEvent.emptyEl n a :: rest) label c it d
        = Button.loop rest label c it d) ∧
    (∀ (oT oL : Collab) (n : String) (a : List (String × String))
        (rest : List XmlEvent) (item : DialogField) (d : Int),
      DialogField.loop oT oL (XmlEvent.emptyEl n a :: rest) item d
        = DialogField.loop oT oL rest item d) ∧
    ((Button.from_xml []
      [XmlEvent.emptyEl "Boolean" [("type", "Commit"), ("value", "True")],
        XmlEvent.close "P"]).1).commit = false ∧
    ((DialogField.from_xml (fun _ _ => none) (fun _ _ => none) []
      [XmlEvent.emptyEl "Boolean" [("type", "Password"), ("value", "True")],
        XmlEvent.close "P"]).1).password = false := by
  refine ⟨?_, ?_, ?_, ?_⟩
  · intro n a rest label c it d; rfl
  · intro oT oL n a rest item d; simp only [DialogField.loop]
  · decide
  · simp [DialogField.from_xml, DialogField.loop]

theorem c10_empty_element_ignored_witness :
    Button.loop
        [XmlEvent.emptyEl "Boolean" [("value", "True")], XmlEvent.close "P"]
        none false false 1
      = Button.loop [XmlEvent.close "P"] none false false 1 :=
  c10_empty_element_ignored.1 "Boolean" [("value", "True")]
    [XmlEvent.close "P"] none false false 1
